import Mathlib

/-!
Shallow embedding of `app.py` (resume-analyzer).

The program is a single-page Streamlit app: it accepts an uploaded file,
writes it to a temporary path, sniffs its type, extracts text (PDF/DOCX) or
decodes an image, composes a fixed prompt (optionally with a job-description
suffix) and sends it to a remote generative model, rendering and offering the
returned markdown for download.

External libraries (`filetype`, `fitz`/PyMuPDF, `python-docx`, PIL, the
Gemini client) are modelled as oracles: per-interaction values describing
what each library call would return for the uploaded file, including the
possibility of raising an exception (`Except`).  The control flow of
`main`, `upload_section` and the helper functions is translated directly.
-/

/-- Python's `s.split(c)` on a list of characters: splits at every
occurrence of `c`; always returns at least one (possibly empty) segment. -/
def splitOnChar (c : Char) : List Char → List (List Char)
  | [] => [[]]
  | x :: xs =>
    let r := splitOnChar c xs
    if x = c then [] :: r
    else
      match r with
      | [] => [[x]]
      | y :: ys => (x :: y) :: ys

/-- `path.split(c)[-1]`: the last segment of a split (Python's `[-1]`
indexing; `split` never returns an empty list). -/
def lastSeg (c : Char) (l : List Char) : List Char :=
  (splitOnChar c l).getLastD []

/-- Python's `s.lower()`: lower-case every character (the extensions at
play are ASCII). -/
def pyLower (s : String) : String := String.mk (s.toList.map Char.toLower)

/-- `detect_file_type` (app.py lines 98-100).  `filetype.guess` is the
oracle argument `kind`: `some e` when sniffing succeeds with extension `e`,
`none` when it is inconclusive.  Fallback: `path.split('.')[-1].lower()`. -/
def detect_file_type (kind : Option String) (path : String) : String :=
  match kind with
  | some e => e
  | none => pyLower (String.mk (lastSeg '.' path.toList))

/-- Python's `sep.join(xs)`. -/
def pyJoin (sep : String) : List String → String
  | [] => ""
  | [x] => x
  | x :: xs => x ++ sep ++ pyJoin sep xs

/-- A PDF page as seen through PyMuPDF: `page.get_text()` yields `text`
(empty for an image-only/scanned page); `imageCount` records embedded
images, which the extraction never looks at (no OCR). -/
structure PdfPage where
  text : String
  imageCount : Nat
  deriving DecidableEq, Repr

/-- `extract_text_from_pdf` (app.py lines 90-92): a readable document is a
list of pages; the result is `"\n".join([page.get_text() for page in doc])`. -/
def extract_text_from_pdf (doc : List PdfPage) : String :=
  pyJoin "\n" (doc.map PdfPage.text)

/-- A block-level item of a DOCX body: a paragraph with its text, or a
table given by its cell texts.  `python-docx`'s `doc.paragraphs` exposes
only the body-level paragraphs, never the text inside tables. -/
inductive DocxBlock where
  | para (text : String)
  | table (cells : List (List String))
  deriving DecidableEq, Repr

/-- `doc.paragraphs` of python-docx: the texts of the body-level
paragraphs, in document order; table content is not included. -/
def docParagraphs : List DocxBlock → List String
  | [] => []
  | .para t :: bs => t :: docParagraphs bs
  | .table _ :: bs => docParagraphs bs

/-- Whether a block is a paragraph (used to state table-independence). -/
def DocxBlock.isPara : DocxBlock → Bool
  | .para _ => true
  | .table _ => false

/-- `extract_text_from_docx` (app.py lines 94-96):
`"\n".join([p.text for p in doc.paragraphs])`. -/
def extract_text_from_docx (body : List DocxBlock) : String :=
  pyJoin "\n" (docParagraphs body)

/-- The fixed instruction block of `analyze_with_gemini` (app.py lines
103-137), byte for byte, including the leading newline after the opening
triple quote, the trailing space after "companies. ", and the final
newline before the closing triple quote. -/
def base_prompt : String :=
  "\nYou are an expert resume reviewer with 15+ years of HR experience at top tech companies. \n" ++
  "Analyze this resume comprehensively and provide detailed feedback in the following structure:\n" ++
  "\n### 🔍 Resume Overview\n" ++
  "- Format assessment (ATS compatibility)\n" ++
  "- Document structure evaluation\n" ++
  "- First impressions summary\n" ++
  "\n### 📊 Section-by-Section Analysis\n" ++
  "For each detected section (Education, Experience, Skills, etc.):\n" ++
  "1. **Rating**: /10 with justification\n" ++
  "2. **Strengths**: Bullet points\n" ++
  "3. **Improvements**: Actionable suggestions\n" ++
  "4. **Keywords**: Missing industry terms\n" ++
  "\n### 🎯 Targeted Recommendations\n" ++
  "- Top 3 priority improvements\n" ++
  "- Skills/experiences to highlight\n" ++
  "- Redundant content to remove\n" ++
  "\n### 💯 Overall Score: /100\n" ++
  "With detailed breakdown:\n" ++
  "- Content (40%)\n" ++
  "- Structure (30%)\n" ++
  "- Impact (20%)\n" ++
  "- ATS Optimization (10%)\n" ++
  "\n### ✨ Enhancement Suggestions\n" ++
  "- Power verbs to incorporate\n" ++
  "- Quantifiable achievements to add\n" ++
  "- Modern formatting tips\n" ++
  "\nFormat your response in beautiful Markdown with emojis for visual scanning.\n"

/-- The f-string appended when a job description is supplied (app.py line
140): `"\n\nAdditionally, optimize this resume for the following job description:\n" + jd`. -/
def job_suffix (jd : String) : String :=
  "\n\nAdditionally, optimize this resume for the following job description:\n" ++ jd

/-- The prompt built inside `analyze_with_gemini` (lines 103-140).
Python truthiness of `if job_description:`: the suffix is appended exactly
when the argument is neither `None` nor the empty string. -/
def composePrompt (job_description : Option String) : String :=
  match job_description with
  | none => base_prompt
  | some d => if d = "" then base_prompt else base_prompt ++ job_suffix d

/-- A decoded image as produced by `Image.open(...).convert("RGB")`
(app.py line 295); content is opaque to the rest of the program. -/
structure RGBImage where
  pixels : List Nat
  deriving DecidableEq, Repr

/-- The `input_data` variable of `main`: starts as `None` (line 273), may
become extracted text or a decoded image. -/
inductive InputData where
  | nullData
  | textData (t : String)
  | imageData (img : RGBImage)
  deriving DecidableEq, Repr

/-- `analyze_with_gemini` (lines 102-143): compose the prompt and make the
single blocking call `model.generate_content([prompt, input_data])`, whose
behaviour is the oracle `remote`; exceptions propagate as `.error`. -/
def analyze_with_gemini (remote : String → InputData → Except String String)
    (input_data : InputData) (job_description : Option String) : Except String String :=
  remote (composePrompt job_description) input_data

/-- The settings dict returned by `sidebar()` (app.py lines 189-195). -/
structure Settings where
  analysis_depth : String
  ats_check : Bool
  bias_check : Bool
  job_title : String
  job_description : String
  deriving DecidableEq, Repr

/-- An uploaded file as produced by the upload control: its declared name
(raw bytes only feed the library oracles). -/
structure Upload where
  name : String
  deriving DecidableEq, Repr

/-- Per-interaction behaviour of the external libraries on the uploaded
file:
* `tmpStem` — directory plus random component of the `NamedTemporaryFile`
  path; the file name is appended to it (`suffix=uploaded_file.name`);
* `sniff` — result of `filetype.guess` on the temporary file;
* `imageOpen` — result of `Image.open(path).convert("RGB")`;
* `pdfDoc` — result of `fitz.open(path)` followed by reading each page;
* `docxDoc` — result of `docx.Document(path)`;
* `remote` — behaviour of `model.generate_content([prompt, input_data])`,
  returning `response.text` or raising. -/
structure Oracles where
  tmpStem : String
  sniff : Option String
  imageOpen : Except String RGBImage
  pdfDoc : Except String (List PdfPage)
  docxDoc : Except String (List DocxBlock)
  remote : String → InputData → Except String String

/-- The temporary path created in `upload_section` (lines 224-227):
`NamedTemporaryFile(delete=False, suffix=uploaded_file.name)`. -/
def tmpPathOf (stem name : String) : String := stem ++ name

/-- The try-block of the preview pane (app.py lines 293-305): dispatch on
the detected extension, producing the final value of `input_data`, or the
exception message when the branch taken raises.  An extension outside the
five handled ones runs no branch and leaves `input_data` as `None`. -/
def previewStep (ext : String) (o : Oracles) : Except String InputData :=
  if ext = "jpg" ∨ ext = "jpeg" ∨ ext = "png" then
    o.imageOpen.map InputData.imageData
  else if ext = "pdf" then
    o.pdfDoc.map (fun doc => InputData.textData (extract_text_from_pdf doc))
  else if ext = "docx" then
    o.docxDoc.map (fun body => InputData.textData (extract_text_from_docx body))
  else
    Except.ok InputData.nullData

/-- Observable effects of one interaction of `main`:
`errors` — messages shown via `st.error`; `remoteCalls` — every invocation
of `model.generate_content`, as (prompt, payload); `rendered` — markdown
shown via `st.markdown(analysis)`; `download` — the download control's
(file_name, data); `removedFiles` — every `os.remove` performed. -/
structure Trace where
  errors : List String
  remoteCalls : List (String × InputData)
  rendered : Option String
  download : Option (String × String)
  removedFiles : List String
  deriving Repr

/-- `main` (app.py lines 252-355), for one interaction.  `clicked` is
whether the Analyze button was pressed.  With no upload, only the static
feature panels are shown.  With an upload: the temporary file is created,
the type detected (line 272), the preview try-block runs; on exception the
error is shown, the file removed and `main` returns (lines 306-309).
Otherwise, if the button is clicked, `analyze_with_gemini` is called with
`settings["job_description"] if settings["job_description"] else None`
(lines 329-332); on success the analysis is rendered and offered as
`resume_analysis_report.md` (lines 333-342), on exception an error is
shown (lines 343-344).  Finally the temporary file is removed (line 355). -/
def runMain (settings : Settings) (upload : Option Upload) (clicked : Bool)
    (o : Oracles) : Trace :=
  match upload with
  | none =>
    { errors := [], remoteCalls := [], rendered := none, download := none,
      removedFiles := [] }
  | some u =>
    let path := tmpPathOf o.tmpStem u.name
    let ext := detect_file_type o.sniff path
    match previewStep ext o with
    | .error e =>
      { errors := ["Error processing file: " ++ e], remoteCalls := [],
        rendered := none, download := none, removedFiles := [path] }
    | .ok input_data =>
      if clicked then
        let jd : Option String :=
          if settings.job_description = "" then none else some settings.job_description
        let prompt := composePrompt jd
        match analyze_with_gemini o.remote input_data jd with
        | .ok analysis =>
          { errors := [], remoteCalls := [(prompt, input_data)],
            rendered := some analysis,
            download := some ("resume_analysis_report.md", analysis),
            removedFiles := [path] }
        | .error e =>
          { errors := ["Analysis error: " ++ e],
            remoteCalls := [(prompt, input_data)], rendered := none,
            download := none, removedFiles := [path] }
      else
        { errors := [], remoteCalls := [], rendered := none, download := none,
          removedFiles := [path] }

/-! ### Properties of the split helper -/

theorem splitOnChar_ne_nil (c : Char) (l : List Char) : splitOnChar c l ≠ [] := by
  cases l with
  | nil => simp [splitOnChar]
  | cons x xs =>
    rw [splitOnChar]
    by_cases h : x = c
    · simp [h]
    · simp only [h, if_false]
      rcases splitOnChar c xs with _ | ⟨y, ys⟩ <;> simp

theorem splitOnChar_of_not_mem {c : Char} {l : List Char} (h : c ∉ l) :
    splitOnChar c l = [l] := by
  induction l with
  | nil => rfl
  | cons x xs ih =>
    rw [splitOnChar]
    have hx : ¬ x = c := fun hc => h (hc ▸ List.mem_cons_self x xs)
    have hxs : c ∉ xs := fun hc => h (List.mem_cons_of_mem x hc)
    simp only [hx, if_false, ih hxs]

theorem two_le_length_splitOnChar {c : Char} {l : List Char} (h : c ∈ l) :
    2 ≤ (splitOnChar c l).length := by
  induction l with
  | nil => cases h
  | cons x xs ih =>
    rw [splitOnChar]
    by_cases hx : x = c
    · simp only [hx, if_true, List.length_cons]
      have h1 : splitOnChar c xs ≠ [] := splitOnChar_ne_nil c xs
      have : 1 ≤ (splitOnChar c xs).length := by
        cases hsp : splitOnChar c xs with
        | nil => exact absurd hsp h1
        | cons a b => simp
      omega
    · have hm : c ∈ xs := by
        rcases List.mem_cons.mp h with h' | h'
        · exact absurd h'.symm hx
        · exact h'
      simp only [hx, if_false]
      rcases hsp : splitOnChar c xs with _ | ⟨y, ys⟩
      · exact absurd hsp (splitOnChar_ne_nil c xs)
      · have := ih hm
        rw [hsp] at this
        simpa using this

theorem getLastD_irrel {α : Type} (l : List α) (d₁ d₂ : α) (h : l ≠ []) :
    l.getLastD d₁ = l.getLastD d₂ := by
  cases l with
  | nil => exact absurd rfl h
  | cons x xs => rw [List.getLastD_cons, List.getLastD_cons]

theorem lastSeg_of_not_mem {c : Char} {l : List Char} (h : c ∉ l) :
    lastSeg c l = l := by
  simp [lastSeg, splitOnChar_of_not_mem h]

theorem lastSeg_append (c : Char) (l₁ l₂ : List Char) :
    lastSeg c (l₁ ++ c :: l₂) = lastSeg c l₂ := by
  induction l₁ with
  | nil =>
    have h1 : splitOnChar c (c :: l₂) = [] :: splitOnChar c l₂ := by
      rw [splitOnChar]; simp
    show lastSeg c (c :: l₂) = lastSeg c l₂
    rw [lastSeg, h1, List.getLastD_cons]
    rfl
  | cons x l₁ ih =>
    show lastSeg c (x :: (l₁ ++ c :: l₂)) = lastSeg c l₂
    by_cases hx : x = c
    · have h1 : splitOnChar c (x :: (l₁ ++ c :: l₂)) =
          [] :: splitOnChar c (l₁ ++ c :: l₂) := by
        rw [splitOnChar]; simp [hx]
      rw [lastSeg, h1, List.getLastD_cons]
      exact ih
    · rcases hsp : splitOnChar c (l₁ ++ c :: l₂) with _ | ⟨y, ys⟩
      · exact absurd hsp (splitOnChar_ne_nil c _)
      · have h1 : splitOnChar c (x :: (l₁ ++ c :: l₂)) = (x :: y) :: ys := by
          rw [splitOnChar]
          simp only [hx, if_false]
          rw [hsp]
        have hlen : 2 ≤ (splitOnChar c (l₁ ++ c :: l₂)).length :=
          two_le_length_splitOnChar (by simp)
        rw [hsp] at hlen
        have hys : ys ≠ [] := by
          cases ys with
          | nil => simp at hlen
          | cons a b => simp
        rw [lastSeg, h1, List.getLastD_cons]
        have h2 : ys.getLastD (x :: y) = ys.getLastD y := getLastD_irrel ys _ _ hys
        rw [h2]
        have h3 : lastSeg c (l₁ ++ c :: l₂) = ys.getLastD y := by
          rw [lastSeg, hsp, List.getLastD_cons]
        rw [← h3, ih]

theorem string_toList_append (a b : String) :
    (a ++ b).toList = a.toList ++ b.toList := by
  cases a; cases b; rfl

theorem string_mk_toList (s : String) : String.mk s.toList = s := rfl

/-- The extension fallback of `detect_file_type`: on a path of the form
`pre ++ "." ++ ext` with `ext` dot-free, `split('.')[-1].lower()` is the
lower-cased `ext`. -/
theorem detect_fallback_ext (pre ext : String) (h : '.' ∉ ext.toList) :
    detect_file_type none (pre ++ "." ++ ext) = pyLower ext := by
  have hl : (pre ++ "." ++ ext).toList = pre.toList ++ '.' :: ext.toList := by
    rw [string_toList_append, string_toList_append, List.append_assoc]
    rfl
  rw [detect_file_type, hl, lastSeg_append, lastSeg_of_not_mem h, string_mk_toList]

/-- For a dot-free path, the fallback of `detect_file_type` is the whole
path, lower-cased (Python's `split` returns the undivided string and `[-1]`
selects it). -/
theorem detect_fallback_dotless (p : String) (h : '.' ∉ p.toList) :
    detect_file_type none p = pyLower p := by
  rw [detect_file_type, lastSeg_of_not_mem h, string_mk_toList]

/-- `"\n".join` over a list of empty strings is a string of
(length − 1) newline characters. -/
theorem pyJoin_newline_all_empty :
    ∀ l : List String, (∀ x ∈ l, x = "") →
      pyJoin "\n" l = String.mk (List.replicate (l.length - 1) '\n')
  | [], _ => rfl
  | [x], h => by
    have hx : x = "" := h x (by simp)
    simp [pyJoin, hx]
  | x :: y :: t, h => by
    have hx : x = "" := h x (by simp)
    have ih := pyJoin_newline_all_empty (y :: t) (fun z hz => h z (by simp [hz]))
    have hstep : pyJoin "\n" (x :: y :: t) = x ++ "\n" ++ pyJoin "\n" (y :: t) := rfl
    rw [hstep, hx, ih]
    have h2 : ("" :: y :: t).length - 1 = ((y :: t).length - 1) + 1 := by simp
    rw [h2, List.replicate_succ]
    rfl

/-- `doc.paragraphs` ignores tables: filtering the table blocks out of the
body does not change the paragraph list. -/
theorem docParagraphs_filter :
    ∀ body : List DocxBlock, docParagraphs (body.filter DocxBlock.isPara) = docParagraphs body
  | [] => rfl
  | .para t :: bs => by
    simp [List.filter, DocxBlock.isPara, docParagraphs, docParagraphs_filter bs]
  | .table cs :: bs => by
    simp [List.filter, DocxBlock.isPara, docParagraphs, docParagraphs_filter bs]

/-! ### Concrete fixtures used by the witnesses -/

/-- A settings value with a non-empty job description. -/
def wSettings : Settings :=
  { analysis_depth := "Standard", ats_check := true, bias_check := false,
    job_title := "", job_description := "Senior backend engineer, Python" }

/-- The same settings with an empty job description. -/
def wSettingsNoJd : Settings :=
  { wSettings with job_description := "" }

/-- An uploaded file named `resume.pdf`. -/
def wUpload : Upload := { name := "resume.pdf" }

/-- Library behaviour for a well-formed one-page text PDF whose sniffing is
inconclusive; the remote model answers with a fixed markdown string. -/
def wOracles : Oracles :=
  { tmpStem := "/tmp/tmp8a1xq_"
    sniff := none
    imageOpen := Except.error "cannot identify image file"
    pdfDoc := Except.ok [{ text := "John Doe - Software Engineer", imageCount := 0 }]
    docxDoc := Except.error "File is not a zip file"
    remote := fun _ _ => Except.ok "### Score: 80/100" }

/-- Library behaviour for a corrupted file sniffed as `docx`: the DOCX
extractor raises. -/
def wOraclesBadDocx : Oracles :=
  { wOracles with sniff := some "docx" }

/-- Library behaviour for a file sniffed as `zip` (for example a renamed
archive): none of the five extraction branches applies. -/
def wOraclesZip : Oracles :=
  { wOracles with sniff := some "zip" }

/-! ### Claim theorems -/

/-- C1: for every interaction that reaches the remote call, if the job
description is non-empty the prompt passed to the remote model is the fixed
base prompt followed by the job-description suffix, in that order; if it is
empty (Python's falsy string, converted to `None` at the call site) the
prompt is exactly the base prompt, with no suffix. -/
theorem claim_C1_prompt_composition (s : Settings) (u : Upload) (o : Oracles)
    (input : InputData)
    (hok : previewStep (detect_file_type o.sniff (tmpPathOf o.tmpStem u.name)) o =
      Except.ok input) :
    (s.job_description ≠ "" →
      (runMain s (some u) true o).remoteCalls.map Prod.fst =
        [base_prompt ++ job_suffix s.job_description]) ∧
    (s.job_description = "" →
      (runMain s (some u) true o).remoteCalls.map Prod.fst = [base_prompt]) := by
  have hrm : (runMain s (some u) true o).remoteCalls =
      [(composePrompt (if s.job_description = "" then none else some s.job_description),
        input)] := by
    cases hr : o.remote
        (composePrompt (if s.job_description = "" then none else some s.job_description))
        input with
    | error e => simp [runMain, hok, analyze_with_gemini, hr]
    | ok t => simp [runMain, hok, analyze_with_gemini, hr]
  refine ⟨fun hne => ?_, fun he => ?_⟩
  · rw [hrm]
    simp [composePrompt, hne]
  · rw [hrm]
    simp [composePrompt, he]

/-- Witness for C1 at a concrete interaction: a sniff-inconclusive PDF named
`resume.pdf` with a non-empty job description. -/
theorem claim_C1_witness :
    (runMain wSettings (some wUpload) true wOracles).remoteCalls.map Prod.fst =
      [base_prompt ++ job_suffix "Senior backend engineer, Python"] :=
  (claim_C1_prompt_composition wSettings wUpload wOracles
    (InputData.textData "John Doe - Software Engineer") rfl).1 (by decide)

/-- C2: whenever the preview/extraction step raises, the interaction shows
the user-visible processing error and the remote inference call is never
invoked. -/
theorem claim_C2_extraction_error_aborts (s : Settings) (u : Upload) (clicked : Bool)
    (o : Oracles) (e : String)
    (herr : previewStep (detect_file_type o.sniff (tmpPathOf o.tmpStem u.name)) o =
      Except.error e) :
    (runMain s (some u) clicked o).errors = ["Error processing file: " ++ e] ∧
    (runMain s (some u) clicked o).remoteCalls = [] := by
  constructor <;> simp [runMain, herr]

/-- Witness for C2: a corrupted file sniffed as `docx` whose extraction
raises. -/
theorem claim_C2_witness :
    (runMain wSettings (some wUpload) true wOraclesBadDocx).errors =
      ["Error processing file: " ++ "File is not a zip file"] ∧
    (runMain wSettings (some wUpload) true wOraclesBadDocx).remoteCalls = [] :=
  claim_C2_extraction_error_aborts wSettings wUpload true wOraclesBadDocx
    "File is not a zip file" rfl

/-- C3: the temporary file is removed (exactly once) on every outcome of
the handling path: extraction success or error, analysis success or error,
button clicked or not. -/
theorem claim_C3_tempfile_removed (s : Settings) (u : Upload) (clicked : Bool)
    (o : Oracles) :
    (runMain s (some u) clicked o).removedFiles = [tmpPathOf o.tmpStem u.name] := by
  rcases hp : previewStep (detect_file_type o.sniff (tmpPathOf o.tmpStem u.name)) o with e | d
  · simp [runMain, hp]
  · cases clicked with
    | false => simp [runMain, hp]
    | true =>
      rcases hr : o.remote
          (composePrompt (if s.job_description = "" then none else some s.job_description))
          d with e2 | t
      · simp [runMain, hp, analyze_with_gemini, hr]
      · simp [runMain, hp, analyze_with_gemini, hr]

/-- C4 counterexample: the upload control only restricts the file NAME, so
a renamed archive named `resume.pdf` is sniffed as `zip`; `detect_file_type`
returns `zip`, which is neither one of the five supported extensions nor
the lowered raw extension of the path (`pdf`).  The claim's closing clause
is therefore false as stated. -/
theorem claim_C4_counterexample :
    detect_file_type (some "zip") "/tmp/tmpffq1resume.pdf" = "zip" ∧
    "zip" ∉ (["pdf", "docx", "jpg", "jpeg", "png"] : List String) ∧
    "zip" ≠ detect_file_type none "/tmp/tmpffq1resume.pdf" :=
  ⟨rfl, by decide, by decide⟩

/-- C4 (amended): type detection returns the content-sniffed extension when
sniffing succeeds, and otherwise falls back to the extension of the path,
lower-cased; so the result is always the sniffed extension or that lowered
raw extension string. -/
theorem claim_C4_detect_type_amended (k : Option String) (pre ext : String)
    (h : '.' ∉ ext.toList) :
    (∀ e, k = some e → detect_file_type k (pre ++ "." ++ ext) = e) ∧
    (k = none → detect_file_type k (pre ++ "." ++ ext) = pyLower ext) := by
  constructor
  · rintro e rfl
    rfl
  · rintro rfl
    exact detect_fallback_ext pre ext h

/-- Witness for C4 at a concrete path: sniffing inconclusive on a temp path
ending in `.PDF` gives `pdf`. -/
theorem claim_C4_witness :
    detect_file_type none ("/tmp/tmpzh55xw1qresume" ++ "." ++ "PDF") = pyLower "PDF" :=
  (claim_C4_detect_type_amended none "/tmp/tmpzh55xw1qresume" "PDF" (by decide)).2 rfl

/-- C5 counterexample: a two-page PDF in which no page has any text (both
pages image-only) extracts to `"\n"`, not to the empty string: the join
still inserts one separator per page boundary. -/
theorem claim_C5_counterexample :
    (∀ p ∈ [PdfPage.mk "" 1, PdfPage.mk "" 1], p.text = "") ∧
    extract_text_from_pdf [PdfPage.mk "" 1, PdfPage.mk "" 1] ≠ "" :=
  ⟨by decide, by decide⟩

/-- C5 (amended): the PDF extraction output equals the per-page text joined
with newlines, in page order; for a PDF in which no page has any text the
output consists of exactly (page count − 1) newline characters — in
particular it is the empty string only when the document has at most one
page. -/
theorem claim_C5_pdf_extraction_amended (doc : List PdfPage) :
    extract_text_from_pdf doc = pyJoin "\n" (doc.map PdfPage.text) ∧
    ((∀ p ∈ doc, p.text = "") →
      extract_text_from_pdf doc = String.mk (List.replicate (doc.length - 1) '\n')) := by
  refine ⟨rfl, fun h => ?_⟩
  have hj := pyJoin_newline_all_empty (doc.map PdfPage.text)
    (fun x hx => by
      rcases List.mem_map.mp hx with ⟨p, hp, rfl⟩
      exact h p hp)
  rw [extract_text_from_pdf, hj, List.length_map]

/-- Witness for C5 at a one-page image-only PDF: the output is empty. -/
theorem claim_C5_witness :
    extract_text_from_pdf [PdfPage.mk "" 2] = String.mk (List.replicate 0 '\n') :=
  (claim_C5_pdf_extraction_amended [PdfPage.mk "" 2]).2 (by decide)

/-- C6: the DOCX extraction output equals the newline-joined texts of the
body paragraphs in document order, and removing every table from the body
does not change the output (table text is never included). -/
theorem claim_C6_docx_extraction (body : List DocxBlock) :
    extract_text_from_docx body = pyJoin "\n" (docParagraphs body) ∧
    extract_text_from_docx (body.filter DocxBlock.isPara) = extract_text_from_docx body := by
  refine ⟨rfl, ?_⟩
  rw [extract_text_from_docx, extract_text_from_docx, docParagraphs_filter]

/-- C7: two interactions agreeing on everything except analysis depth, the
two toggles and the job title produce identical traces — in particular the
identical prompt and payload to the remote model.  Only the job description
field of the settings can influence the interaction. -/
theorem claim_C7_settings_noninterference (s₁ s₂ : Settings) (upload : Option Upload)
    (clicked : Bool) (o : Oracles)
    (h : s₁.job_description = s₂.job_description) :
    runMain s₁ upload clicked o = runMain s₂ upload clicked o := by
  cases upload with
  | none => rfl
  | some u => simp only [runMain, h]

/-- An alternative settings value differing from `wSettings` in depth, both
toggles and the job title, but not in the job description. -/
def wSettingsAlt : Settings :=
  { analysis_depth := "Comprehensive", ats_check := false, bias_check := true,
    job_title := "CTO", job_description := "Senior backend engineer, Python" }

/-- Witness for C7 at two concrete settings values. -/
theorem claim_C7_witness :
    runMain wSettings (some wUpload) true wOracles =
      runMain wSettingsAlt (some wUpload) true wOracles :=
  claim_C7_settings_noninterference wSettings wSettingsAlt (some wUpload) true wOracles rfl

/-- C8: on every successful analysis, the rendered markdown is the remote
response text and the download control offers exactly that text under the
name `resume_analysis_report.md`. -/
theorem claim_C8_download_report (s : Settings) (u : Upload) (o : Oracles)
    (input : InputData) (t : String)
    (hok : previewStep (detect_file_type o.sniff (tmpPathOf o.tmpStem u.name)) o =
      Except.ok input)
    (hr : o.remote
      (composePrompt (if s.job_description = "" then none else some s.job_description))
      input = Except.ok t) :
    (runMain s (some u) true o).rendered = some t ∧
    (runMain s (some u) true o).download = some ("resume_analysis_report.md", t) := by
  constructor <;> simp [runMain, hok, analyze_with_gemini, hr]

/-- Witness for C8: the stubbed remote call returns `### Score: 80/100`. -/
theorem claim_C8_witness :
    (runMain wSettings (some wUpload) true wOracles).rendered = some "### Score: 80/100" ∧
    (runMain wSettings (some wUpload) true wOracles).download =
      some ("resume_analysis_report.md", "### Score: 80/100") :=
  claim_C8_download_report wSettings wUpload wOracles
    (InputData.textData "John Doe - Software Engineer") "### Score: 80/100" rfl rfl

/-- C9: when the detected type is none of the five handled extensions, the
preview try-block runs no branch and raises nothing (`input_data` stays
`None`), no error is shown at extraction time, and clicking Analyze still
invokes the remote call with a `None` content payload. -/
theorem claim_C9_unknown_type_passthrough (s : Settings) (u : Upload) (o : Oracles)
    (h : detect_file_type o.sniff (tmpPathOf o.tmpStem u.name) ∉
      (["pdf", "docx", "jpg", "jpeg", "png"] : List String)) :
    previewStep (detect_file_type o.sniff (tmpPathOf o.tmpStem u.name)) o =
      Except.ok InputData.nullData ∧
    (runMain s (some u) false o).errors = [] ∧
    (runMain s (some u) true o).remoteCalls.map Prod.snd = [InputData.nullData] := by
  have hjpg : detect_file_type o.sniff (tmpPathOf o.tmpStem u.name) ≠ "jpg" :=
    fun hc => h (by rw [hc]; simp)
  have hjpeg : detect_file_type o.sniff (tmpPathOf o.tmpStem u.name) ≠ "jpeg" :=
    fun hc => h (by rw [hc]; simp)
  have hpng : detect_file_type o.sniff (tmpPathOf o.tmpStem u.name) ≠ "png" :=
    fun hc => h (by rw [hc]; simp)
  have hpdf : detect_file_type o.sniff (tmpPathOf o.tmpStem u.name) ≠ "pdf" :=
    fun hc => h (by rw [hc]; simp)
  have hdocx : detect_file_type o.sniff (tmpPathOf o.tmpStem u.name) ≠ "docx" :=
    fun hc => h (by rw [hc]; simp)
  have hprev : previewStep (detect_file_type o.sniff (tmpPathOf o.tmpStem u.name)) o =
      Except.ok InputData.nullData := by
    rw [previewStep, if_neg (by simp [hjpg, hjpeg, hpng]), if_neg hpdf, if_neg hdocx]
  refine ⟨hprev, by simp [runMain, hprev], ?_⟩
  rcases hr : o.remote
      (composePrompt (if s.job_description = "" then none else some s.job_description))
      InputData.nullData with e2 | t
  · simp [runMain, hprev, analyze_with_gemini, hr]
  · simp [runMain, hprev, analyze_with_gemini, hr]

/-- Witness for C9: a file sniffed as `zip`. -/
theorem claim_C9_witness :
    previewStep
      (detect_file_type wOraclesZip.sniff (tmpPathOf wOraclesZip.tmpStem wUpload.name))
      wOraclesZip = Except.ok InputData.nullData ∧
    (runMain wSettings (some wUpload) false wOraclesZip).errors = [] ∧
    (runMain wSettings (some wUpload) true wOraclesZip).remoteCalls.map Prod.snd =
      [InputData.nullData] :=
  claim_C9_unknown_type_passthrough wSettings wUpload wOraclesZip (by decide)

/-- C10: on a path containing no `.` the inconclusive-sniff fallback is the
entire path lower-cased (Python's `split('.')` returns the undivided string
and `[-1]` selects it); and the fallback is computed from the temporary
file's path, not from the uploaded filename — exhibited by an interaction
whose temporary directory contains a `.`, where the two disagree. -/
theorem claim_C10_dotless_fallback :
    (∀ p : String, '.' ∉ p.toList → detect_file_type none p = pyLower p) ∧
    (∃ (u : Upload) (o : Oracles),
      detect_file_type o.sniff (tmpPathOf o.tmpStem u.name) ≠
        detect_file_type o.sniff u.name) := by
  constructor
  · exact detect_fallback_dotless
  · refine ⟨{ name := "resume" }, { wOracles with tmpStem := "/data/app.cache/tmp77" }, ?_⟩
    decide

/-- Witness for C10 at a concrete dot-free path. -/
theorem claim_C10_witness :
    detect_file_type none "README" = pyLower "README" :=
  claim_C10_dotless_fallback.1 "README" (by decide)
